import Mathlib

/-!
Verification of the VisionCraft image-filtering module
(`VisionCraft/vision/filter.py`): shallow embedding of `boxFilter`,
`weightedAvgFilter` and `medianFilter` over integer pixel grids, and
theorems about the properties stated in the design document.

A grayscale image is a rectangular 2-D grid of integer pixel values,
modelled as a list of rows.  The numpy operations used by the code are
embedded as follows: `np.pad(img, p, constant_values=255)` becomes `pad`,
python slicing `a[r:r+n, c:c+n]` becomes `slice2` (note `List.take` and
`List.drop` clamp exactly like python slices), `np.sum` becomes `sum2`,
`np.floor(x / k)` on integers becomes `Int.fdiv`, `np.median` becomes
`median` (sort, middle element, or average of the two middle elements),
and assignment of a float into an integer-typed array becomes `truncQ`
(truncation toward zero).  The nested `for row / for col` loops writing
into `np.zeros_like(img)` become `buildGrid`; they are also modelled
imperatively (`FilterState`, `foldl` over the index list) to state the
frame property that the input grid is never mutated.
-/

namespace VisionCraft

/-- A grayscale image: a 2-D grid of integer pixel values, row major. -/
abbrev Grid := List (List ℤ)

/-- A rational-valued grid, modelling a float-typed numpy array. -/
abbrev GridQ := List (List ℚ)

/-- Number of columns of a grid: the length of its first row, as in
the numpy shape `(rows, cols)` of a rectangular array. -/
def cols (img : Grid) : ℕ := (img.headD []).length

/-- The grid is rectangular (a well-formed 2-D numpy array): every row
has length `cols img`. -/
def Rect (img : Grid) : Prop := ∀ row ∈ img, row.length = cols img

instance decidableRect (img : Grid) : Decidable (Rect img) :=
  List.decidableBAll _ img

/-- Embedding of `int(np.ceil(n / 2))` for a natural `n`: the padding
width used by the box and median filters. -/
def ceilHalf (n : ℕ) : ℕ := (n + 1) / 2

/-- One row of the padded image: `p` cells of 255 on each side. -/
def padRow (p : ℕ) (row : List ℤ) : List ℤ :=
  List.replicate p 255 ++ row ++ List.replicate p 255

/-- Embedding of `np.pad(img, pad_width=p, mode=constant,
constant_values=255)`: a border of width `p` holding 255 around the
image. -/
def pad (p : ℕ) (img : Grid) : Grid :=
  List.replicate p (List.replicate (cols img + 2 * p) 255) ++
    img.map (padRow p) ++
    List.replicate p (List.replicate (cols img + 2 * p) 255)

/-- Embedding of the window slice `g[r:r+n, c:c+n]`.  `List.drop` and
`List.take` clamp at the end of the list exactly as python slices do. -/
def slice2 (g : Grid) (r c n : ℕ) : Grid :=
  ((g.drop r).take n).map fun row => (row.drop c).take n

/-- Embedding of `np.sum` over a 2-D grid. -/
def sum2 (g : Grid) : ℤ := (g.map List.sum).sum

/-- Pixel access `g[r][c]` with a default of 0 outside the bounds. -/
def getCell (g : Grid) (r c : ℕ) : ℤ := (g.getD r []).getD c 0

/-- Pixel access for rational grids. -/
def getCellQ (g : GridQ) (r c : ℕ) : ℚ := (g.getD r []).getD c 0

/-- The result of the nested `for row in range(rows): for col in
range(cs)` loops that fill a fresh output grid with `f row col`. -/
def buildGrid (rows cs : ℕ) (f : ℕ → ℕ → ℤ) : Grid :=
  (List.range rows).map fun row => (List.range cs).map fun col => f row col

/-- Rational counterpart of `buildGrid`, for float-typed outputs. -/
def buildGridQ (rows cs : ℕ) (f : ℕ → ℕ → ℚ) : GridQ :=
  (List.range rows).map fun row => (List.range cs).map fun col => f row col

/-- Truncation toward zero, the conversion applied when a python float
is stored into an integer-typed numpy array. -/
def truncQ (q : ℚ) : ℤ := if 0 ≤ q then ⌊q⌋ else ⌈q⌉

/-- The body of the box-filter loop:
`np.floor(np.sum(img1[row:row+fs, col:col+fs]) / (fs * fs))`.
`Int.fdiv` is floor division, matching `np.floor` applied to the exact
quotient. -/
def boxReplace (img1 : Grid) (fs r c : ℕ) : ℤ :=
  Int.fdiv (sum2 (slice2 img1 r c fs)) (fs * fs)

/-- Embedding of `boxFilter` (the pure image transform, after the image
has been resolved): pad with `ceilHalf filter_size` cells of 255, then
write `boxReplace` at every output coordinate. -/
def boxFilter (img : Grid) (filter_size : ℕ) : Grid :=
  let img1 := pad (ceilHalf filter_size) img
  buildGrid img.length (cols img) fun row col => boxReplace img1 filter_size row col

/-- The fixed 3×3 kernel of `weightedAvgFilter`. -/
def weightMatrix : Grid := [[1, 2, 1], [2, 4, 2], [1, 2, 1]]

/-- Element-wise product of two grids, embedding numpy `a * b`. -/
def mul2 (a b : Grid) : Grid :=
  List.zipWith (fun ra rb => List.zipWith (fun x y => x * y) ra rb) a b

/-- The body of the weighted-average loop:
`np.sum(img1[row:row+3, col:col+3] * filter) / 16`, kept exact as a
rational (python true division). -/
def weightedReplace (img1 : Grid) (r c : ℕ) : ℚ :=
  ((sum2 (mul2 (slice2 img1 r c 3) weightMatrix) : ℤ) : ℚ) / 16

/-- Embedding of `weightedAvgFilter` (the pure transform): pad with one
cell of 255, then store the truncated weighted mean everywhere. -/
def weightedAvgFilter (img : Grid) : Grid :=
  let img1 := pad 1 img
  buildGrid img.length (cols img) fun row col => truncQ (weightedReplace img1 row col)

/-- Embedding of `np.median` on a flat list: sort ascending; for an odd
count take the middle element, for an even count the average of the two
middle elements.  The result is a rational, as `np.median` returns a
float. -/
def median (l : List ℤ) : ℚ :=
  if l.length % 2 = 1 then
    (((l.insertionSort (fun x y => x ≤ y)).getD (l.length / 2) 0 : ℤ) : ℚ)
  else
    ((((l.insertionSort (fun x y => x ≤ y)).getD (l.length / 2 - 1) 0 : ℤ) : ℚ) +
      (((l.insertionSort (fun x y => x ≤ y)).getD (l.length / 2) 0 : ℤ) : ℚ)) / 2

/-- The body of the median-filter loop:
`np.median(img1[row:row+fs, col:col+fs])` (numpy flattens the window). -/
def medianReplace (img1 : Grid) (fs r c : ℕ) : ℚ :=
  median (slice2 img1 r c fs).flatten

/-- Embedding of `medianFilter` (the pure transform): pad with
`ceilHalf filter_size` cells of 255, then store the truncated window
median everywhere. -/
def medianFilter (img : Grid) (filter_size : ℕ) : Grid :=
  let img1 := pad (ceilHalf filter_size) img
  buildGrid img.length (cols img) fun row col => truncQ (medianReplace img1 filter_size row col)

/-- The input-resolution prologue shared by the three entry points:
`if img is None: img = imRead(path)`.  The loader `imRead` lives in
`VisionCraft/vision/utils.py`; its result is passed in as `loaded`. -/
def resolveInput (imgArg loaded : Option Grid) : Option Grid :=
  match imgArg with
  | some img => some img
  | none => loaded

/-- The full `boxFilter` entry point on optional inputs: resolve the
image, return `None` unchanged when no image is available, otherwise
run the transform. -/
def boxFilterCall (imgArg loaded : Option Grid) (filter_size : ℕ) : Option Grid :=
  match resolveInput imgArg loaded with
  | none => none
  | some img => some (boxFilter img filter_size)

/-- The full `weightedAvgFilter` entry point on optional inputs. -/
def weightedAvgFilterCall (imgArg loaded : Option Grid) : Option Grid :=
  match resolveInput imgArg loaded with
  | none => none
  | some img => some (weightedAvgFilter img)

/-- The full `medianFilter` entry point on optional inputs. -/
def medianFilterCall (imgArg loaded : Option Grid) (filter_size : ℕ) : Option Grid :=
  match resolveInput imgArg loaded with
  | none => none
  | some img => some (medianFilter img filter_size)

/-- The advisory messages printed by `boxFilter` and `medianFilter`:
exactly one message when `filter_size` is even, none otherwise. -/
def oddSizeWarning (filter_size : ℕ) : List String :=
  if filter_size % 2 = 0
  then ["Please Try using Odd Numbers for filter_size to get good results"]
  else []

/-- The mutable state of one filter invocation: the input array `img`
and the output array `filtered_img` being filled in place. -/
structure FilterState where
  inp : Grid
  out : Grid
  deriving Repr, DecidableEq

/-- In-place update `g[r][c] = v` on a grid. -/
def set2 (g : Grid) (r c : ℕ) (v : ℤ) : Grid := g.set r ((g.getD r []).set c v)

/-- Embedding of `np.zeros_like(img)`: a fresh grid of the same shape
holding zeros. -/
def zerosLike (g : Grid) : Grid := g.map fun row => row.map fun _ => 0

/-- One assignment `filtered_img[row, col] = v`: only the output array
is written. -/
def writeOut (s : FilterState) (r c : ℕ) (v : ℤ) : FilterState :=
  { inp := s.inp, out := set2 s.out r c v }

/-- The row-major sequence of coordinates visited by the nested loops. -/
def indexList (rows cs : ℕ) : List (ℕ × ℕ) :=
  ((List.range rows).map fun row => (List.range cs).map fun col => (row, col)).flatten

/-- Imperative form of the `boxFilter` loop: pad once, then fold the
assignments over the visited coordinates, starting from the input array
and a fresh `np.zeros_like` output. -/
def boxFilterLoop (img : Grid) (filter_size : ℕ) : FilterState :=
  let img1 := pad (ceilHalf filter_size) img
  (indexList img.length (cols img)).foldl
    (fun s rc => writeOut s rc.1 rc.2 (boxReplace img1 filter_size rc.1 rc.2))
    { inp := img, out := zerosLike img }

/-- Imperative form of the `weightedAvgFilter` loop. -/
def weightedAvgFilterLoop (img : Grid) : FilterState :=
  let img1 := pad 1 img
  (indexList img.length (cols img)).foldl
    (fun s rc => writeOut s rc.1 rc.2 (truncQ (weightedReplace img1 rc.1 rc.2)))
    { inp := img, out := zerosLike img }

/-- Imperative form of the `medianFilter` loop. -/
def medianFilterLoop (img : Grid) (filter_size : ℕ) : FilterState :=
  let img1 := pad (ceilHalf filter_size) img
  (indexList img.length (cols img)).foldl
    (fun s rc => writeOut s rc.1 rc.2 (truncQ (medianReplace img1 filter_size rc.1 rc.2)))
    { inp := img, out := zerosLike img }

/-- Two grids have the same numpy shape: equal row counts and equal row
lengths position by position. -/
def sameShape (a b : Grid) : Prop :=
  a.length = b.length ∧ ∀ i, (a.getD i []).length = (b.getD i []).length

/-- Specification-side formula for the sum of the `fs × fs` window of
the padded image anchored at output coordinate `(r, c)`, written as the
design document states it: a sum over the window indices. -/
def specWindowSum (img : Grid) (fs p r c : ℕ) : ℤ :=
  ∑ i ∈ Finset.range fs, ∑ j ∈ Finset.range fs, getCell (pad p img) (r + i) (c + j)

/-- Specification-side formula for one box-filter output cell: the
floor of the window sum divided by the squared filter size, with the
padding width `ceilHalf fs`. -/
def specBoxCell (img : Grid) (fs r c : ℕ) : ℤ :=
  ⌊((specWindowSum img fs (ceilHalf fs) r c : ℤ) : ℚ) / ((fs * fs : ℕ) : ℚ)⌋

/-- Specification-side formula for one weighted-average output cell:
the element-wise product of the 3×3 window with the fixed weight
matrix, summed and divided by 16, kept exact as a rational. -/
def specWeightedCell (img : Grid) (r c : ℕ) : ℚ :=
  ((∑ i ∈ Finset.range 3, ∑ j ∈ Finset.range 3,
      getCell weightMatrix i j * getCell (pad 1 img) (r + i) (c + j) : ℤ) : ℚ) / 16

/-- Rational counterpart of `cols`. -/
def colsQ (img : GridQ) : ℕ := (img.headD []).length

/-- Rational counterpart of `padRow`. -/
def padRowQ (p : ℕ) (row : List ℚ) : List ℚ :=
  List.replicate p 255 ++ row ++ List.replicate p 255

/-- Rational counterpart of `pad`: padding a float-typed array. -/
def padQ (p : ℕ) (img : GridQ) : GridQ :=
  List.replicate p (List.replicate (colsQ img + 2 * p) 255) ++
    img.map (padRowQ p) ++
    List.replicate p (List.replicate (colsQ img + 2 * p) 255)

/-- Rational counterpart of `slice2`. -/
def slice2Q (g : GridQ) (r c n : ℕ) : GridQ :=
  ((g.drop r).take n).map fun row => (row.drop c).take n

/-- Rational counterpart of `sum2`. -/
def sum2Q (g : GridQ) : ℚ := (g.map List.sum).sum

/-- Rational counterpart of `mul2`. -/
def mul2Q (a b : GridQ) : GridQ :=
  List.zipWith (fun ra rb => List.zipWith (fun x y => x * y) ra rb) a b

/-- The fixed 3×3 kernel as a rational grid. -/
def weightMatrixQ : GridQ := [[1, 2, 1], [2, 4, 2], [1, 2, 1]]

/-- Rational counterpart of `median`: `np.median` on a float array. -/
def medianQ (l : List ℚ) : ℚ :=
  if l.length % 2 = 1 then
    (l.insertionSort (fun x y => x ≤ y)).getD (l.length / 2) 0
  else
    ((l.insertionSort (fun x y => x ≤ y)).getD (l.length / 2 - 1) 0 +
      (l.insertionSort (fun x y => x ≤ y)).getD (l.length / 2) 0) / 2

/-- The box filter run on a float-typed image: identical loop, but the
output array is float-typed, so `np.floor` is the only rounding and the
assignment stores the floored value exactly. -/
def boxFilterQ (img : GridQ) (filter_size : ℕ) : GridQ :=
  let img1 := padQ (ceilHalf filter_size) img
  buildGridQ img.length (colsQ img) fun row col =>
    ((⌊sum2Q (slice2Q img1 row col filter_size) / ((filter_size * filter_size : ℕ) : ℚ)⌋ : ℤ) : ℚ)

/-- The weighted-average filter run on a float-typed image: the exact
quotient is stored without truncation. -/
def weightedAvgFilterQ (img : GridQ) : GridQ :=
  let img1 := padQ 1 img
  buildGridQ img.length (colsQ img) fun row col =>
    sum2Q (mul2Q (slice2Q img1 row col 3) weightMatrixQ) / 16

/-- The median filter run on a float-typed image: the exact median is
stored without truncation. -/
def medianFilterQ (img : GridQ) (filter_size : ℕ) : GridQ :=
  let img1 := padQ (ceilHalf filter_size) img
  buildGridQ img.length (colsQ img) fun row col =>
    medianQ (slice2Q img1 row col filter_size).flatten

/-- View an integer image as a float image (numpy would promote the
dtype); pixel values are unchanged. -/
def castGrid (g : Grid) : GridQ := g.map fun row => row.map fun x => ((x : ℤ) : ℚ)

/-! ## Basic access lemmas -/

theorem getD_range_map {α : Type} (f : ℕ → α) (n i : ℕ) (d : α) (h : i < n) :
    ((List.range n).map f).getD i d = f i := by
  have hl : i < ((List.range n).map f).length := by simpa using h
  rw [List.getD_eq_getElem _ _ hl, List.getElem_map, List.getElem_range]

theorem getD_replicate_of_lt {α : Type} (a d : α) {n i : ℕ} (h : i < n) :
    (List.replicate n a).getD i d = a := by
  rw [List.getD_eq_getElem _ _ (by simpa using h), List.getElem_replicate]

theorem getCell_buildGrid (rows cs : ℕ) (f : ℕ → ℕ → ℤ) {r c : ℕ}
    (hr : r < rows) (hc : c < cs) : getCell (buildGrid rows cs f) r c = f r c := by
  unfold getCell buildGrid
  rw [getD_range_map _ _ _ _ hr, getD_range_map _ _ _ _ hc]

theorem getCellQ_buildGridQ (rows cs : ℕ) (f : ℕ → ℕ → ℚ) {r c : ℕ}
    (hr : r < rows) (hc : c < cs) : getCellQ (buildGridQ rows cs f) r c = f r c := by
  unfold getCellQ buildGridQ
  rw [getD_range_map _ _ _ _ hr, getD_range_map _ _ _ _ hc]

/-! ## Padding lemmas -/

theorem length_pad (p : ℕ) (img : Grid) : (pad p img).length = img.length + 2 * p := by
  simp [pad]
  omega

theorem length_padRow (p : ℕ) (row : List ℤ) : (padRow p row).length = row.length + 2 * p := by
  simp [padRow]
  omega

theorem row_length_pad (p : ℕ) (img : Grid) (hrect : Rect img) :
    ∀ row ∈ pad p img, row.length = cols img + 2 * p := by
  intro row hrow
  simp only [pad, List.mem_append, List.mem_map, List.mem_replicate] at hrow
  rcases hrow with (h | ⟨r0, hr0, rfl⟩) | h
  · rw [h.2]
    simp
  · rw [length_padRow, hrect r0 hr0]
  · rw [h.2]
    simp

theorem pad_getD_low (p : ℕ) (img : Grid) {r : ℕ} (h : r < p) :
    (pad p img).getD r [] = List.replicate (cols img + 2 * p) 255 := by
  unfold pad
  rw [List.getD_append _ _ _ _ (by simp; omega), List.getD_append _ _ _ _ (by simpa using h)]
  exact getD_replicate_of_lt _ _ h

theorem pad_getD_mid (p : ℕ) (img : Grid) {r : ℕ} (h1 : p ≤ r) (h2 : r < img.length + p) :
    (pad p img).getD r [] = padRow p (img.getD (r - p) []) := by
  unfold pad
  rw [List.getD_append _ _ _ _ (by simp; omega)]
  have hlt : r < (List.replicate p (List.replicate (cols img + 2 * p) (255 : ℤ)) ++
      img.map (padRow p)).length := by simp; omega
  rw [List.getD_eq_getElem _ _ hlt, List.getElem_append_right (by simpa using h1),
    List.getElem_map]
  congr 1
  rw [List.getD_eq_getElem _ _ (show r - p < img.length by omega)]
  congr 1
  simp

theorem pad_getD_high (p : ℕ) (img : Grid) {r : ℕ} (h1 : img.length + p ≤ r)
    (h2 : r < img.length + 2 * p) :
    (pad p img).getD r [] = List.replicate (cols img + 2 * p) 255 := by
  unfold pad
  have hlt : r < ((List.replicate p (List.replicate (cols img + 2 * p) (255 : ℤ)) ++
      img.map (padRow p)) ++
      List.replicate p (List.replicate (cols img + 2 * p) 255)).length := by simp; omega
  rw [List.getD_eq_getElem _ _ hlt, List.getElem_append_right (by simp; omega),
    List.getElem_replicate]

theorem padRow_getD_low (p : ℕ) (row : List ℤ) {c : ℕ} (h : c < p) :
    (padRow p row).getD c 0 = 255 := by
  unfold padRow
  rw [List.getD_append _ _ _ _ (by simp; omega), List.getD_append _ _ _ _ (by simpa using h)]
  exact getD_replicate_of_lt _ _ h

theorem padRow_getD_mid (p : ℕ) (row : List ℤ) {c : ℕ} (h1 : p ≤ c)
    (h2 : c < row.length + p) :
    (padRow p row).getD c 0 = row.getD (c - p) 0 := by
  unfold padRow
  rw [List.getD_append _ _ _ _ (by simp; omega)]
  have hlt : c < (List.replicate p (255 : ℤ) ++ row).length := by simp; omega
  rw [List.getD_eq_getElem _ _ hlt, List.getElem_append_right (by simpa using h1)]
  rw [List.getD_eq_getElem _ _ (show c - p < row.length by omega)]
  congr 1
  simp

theorem padRow_getD_high (p : ℕ) (row : List ℤ) {c : ℕ} (h1 : row.length + p ≤ c)
    (h2 : c < row.length + 2 * p) :
    (padRow p row).getD c 0 = 255 := by
  unfold padRow
  have hlt : c < ((List.replicate p (255 : ℤ) ++ row) ++ List.replicate p 255).length := by
    simp; omega
  rw [List.getD_eq_getElem _ _ hlt, List.getElem_append_right (by simp; omega),
    List.getElem_replicate]

theorem getCell_pad_inner (p : ℕ) (img : Grid) {r c : ℕ} (hrect : Rect img)
    (hr1 : p ≤ r) (hr2 : r < img.length + p) (hc1 : p ≤ c) (hc2 : c < cols img + p) :
    getCell (pad p img) r c = getCell img (r - p) (c - p) := by
  unfold getCell
  rw [pad_getD_mid p img hr1 hr2]
  have hrowlen : (img.getD (r - p) []).length = cols img := by
    rw [List.getD_eq_getElem _ _ (by omega)]
    exact hrect _ (List.getElem_mem (by omega))
  rw [padRow_getD_mid p _ hc1 (by rw [hrowlen]; omega)]

theorem getCell_pad_border (p : ℕ) (img : Grid) {r c : ℕ} (hrect : Rect img)
    (hr : r < img.length + 2 * p) (hc : c < cols img + 2 * p)
    (h : r < p ∨ img.length + p ≤ r ∨ c < p ∨ cols img + p ≤ c) :
    getCell (pad p img) r c = 255 := by
  unfold getCell
  rcases h with h | h | h | h
  · rw [pad_getD_low p img h]
    exact getD_replicate_of_lt _ _ hc
  · rw [pad_getD_high p img h hr]
    exact getD_replicate_of_lt _ _ hc
  · by_cases hrpos : p ≤ r ∧ r < img.length + p
    · rw [pad_getD_mid p img hrpos.1 hrpos.2]
      exact padRow_getD_low p _ h
    · rcases Nat.lt_or_ge r p with h2 | h2
      · rw [pad_getD_low p img h2]
        exact getD_replicate_of_lt _ _ hc
      · rw [pad_getD_high p img (by omega) hr]
        exact getD_replicate_of_lt _ _ hc
  · by_cases hrpos : p ≤ r ∧ r < img.length + p
    · rw [pad_getD_mid p img hrpos.1 hrpos.2]
      have hrowlen : (img.getD (r - p) []).length = cols img := by
        rw [List.getD_eq_getElem _ _ (by omega)]
        exact hrect _ (List.getElem_mem (by omega))
      exact padRow_getD_high p _ (by rw [hrowlen]; omega) (by rw [hrowlen]; omega)
    · rcases Nat.lt_or_ge r p with h2 | h2
      · rw [pad_getD_low p img h2]
        exact getD_replicate_of_lt _ _ hc
      · rw [pad_getD_high p img (by omega) hr]
        exact getD_replicate_of_lt _ _ hc

/-! ## Slicing and summation lemmas -/

theorem slice2_eq (g : Grid) (r c n : ℕ) (h1 : r + n ≤ g.length)
    (h2 : ∀ row ∈ g, c + n ≤ row.length) :
    slice2 g r c n =
      (List.range n).map fun i => (List.range n).map fun j => getCell g (r + i) (c + j) := by
  unfold slice2
  apply List.ext_getElem
  · simp
    omega
  intro i hi1 hi2
  have hin : i < n := by simpa using hi2
  have hib : r + i < g.length := by omega
  rw [List.getElem_map, List.getElem_map, List.getElem_range, List.getElem_take,
    List.getElem_drop]
  have hmem : g[r + i] ∈ g := List.getElem_mem hib
  have hrowlen := h2 _ hmem
  apply List.ext_getElem
  · simp
    omega
  intro j hj1 hj2
  have hjn : j < n := by simpa using hj2
  rw [List.getElem_take, List.getElem_drop, List.getElem_map, List.getElem_range]
  unfold getCell
  rw [List.getD_eq_getElem _ _ hib]
  rw [List.getD_eq_getElem _ _ (show c + j < _ by omega)]

theorem sum_range_map {M : Type} [AddCommMonoid M] (f : ℕ → M) (n : ℕ) :
    ((List.range n).map f).sum = ∑ i ∈ Finset.range n, f i := by
  induction n with
  | zero => simp
  | succ n ih =>
    rw [List.range_succ, List.map_append, List.sum_append, Finset.sum_range_succ, ih]
    simp

theorem sum2_slice2 (g : Grid) (r c n : ℕ) (h1 : r + n ≤ g.length)
    (h2 : ∀ row ∈ g, c + n ≤ row.length) :
    sum2 (slice2 g r c n) =
      ∑ i ∈ Finset.range n, ∑ j ∈ Finset.range n, getCell g (r + i) (c + j) := by
  rw [slice2_eq g r c n h1 h2]
  unfold sum2
  rw [List.map_map, sum_range_map]
  refine Finset.sum_congr rfl fun i _ => ?_
  simp only [Function.comp]
  rw [sum_range_map]

/-! ## Rounding lemmas -/

theorem fdiv_eq_floor (s : ℤ) (k : ℕ) :
    Int.fdiv s k = ⌊((s : ℤ) : ℚ) / ((k : ℕ) : ℚ)⌋ := by
  rw [Int.fdiv_eq_ediv _ (by positivity)]
  exact (Rat.floor_intCast_div_natCast s k).symm

theorem truncQ_intCast (m : ℤ) : truncQ ((m : ℤ) : ℚ) = m := by
  unfold truncQ
  split
  · exact Int.floor_intCast m
  · exact Int.ceil_intCast m

/-! ## Shape lemmas -/

theorem sameShape_buildGrid (img : Grid) (f : ℕ → ℕ → ℤ) (hrect : Rect img) :
    sameShape (buildGrid img.length (cols img) f) img := by
  constructor
  · simp [buildGrid]
  intro i
  by_cases hi : i < img.length
  · unfold buildGrid
    rw [getD_range_map _ _ _ _ hi, List.getD_eq_getElem _ _ hi]
    simp [hrect _ (List.getElem_mem hi)]
  · unfold buildGrid
    have h1 : (List.map (fun row => List.map (fun col => f row col) (List.range (cols img)))
        (List.range img.length)).getD i [] = [] :=
      List.getD_eq_default _ _ (by simpa using hi)
    have h2 : List.getD img i [] = [] := List.getD_eq_default _ _ (by omega)
    rw [h1, h2]

/-! ## Frame lemma for the imperative loops -/

theorem foldl_writeOut_inp (g : ℕ × ℕ → ℤ) (l : List (ℕ × ℕ)) (s : FilterState) :
    (l.foldl (fun s rc => writeOut s rc.1 rc.2 (g rc)) s).inp = s.inp := by
  induction l generalizing s with
  | nil => rfl
  | cons a t ih => rw [List.foldl_cons, ih]; rfl

/-! ## The weight-matrix window sum -/

theorem sum2_mul2_range (n : ℕ) (f g : ℕ → ℕ → ℤ) :
    sum2 (mul2 ((List.range n).map fun i => (List.range n).map fun j => f i j)
               ((List.range n).map fun i => (List.range n).map fun j => g i j)) =
      ∑ i ∈ Finset.range n, ∑ j ∈ Finset.range n, f i j * g i j := by
  unfold mul2
  rw [List.zipWith_map, List.zipWith_same]
  unfold sum2
  rw [List.map_map, sum_range_map]
  refine Finset.sum_congr rfl fun i _ => ?_
  simp only [Function.comp]
  rw [List.zipWith_map, List.zipWith_same, sum_range_map]

theorem weightMatrix_eq_range :
    weightMatrix =
      (List.range 3).map fun i => (List.range 3).map fun j => getCell weightMatrix i j := by
  decide

/-! ## Median lemmas -/

theorem sorted_replicate (n : ℕ) (v : ℤ) :
    (List.replicate n v).Sorted (fun x y => x ≤ y) := by
  induction n with
  | zero => simp
  | succ n ih =>
    rw [List.replicate_succ, List.sorted_cons]
    exact ⟨fun b hb => le_of_eq (List.eq_of_mem_replicate hb).symm, ih⟩

theorem median_perm_replicate (l : List ℤ) (m : ℕ) (v : ℤ) (hm : 1 ≤ m)
    (hperm : l.Perm (List.replicate m v)) : median l = (v : ℚ) := by
  have hs : l.insertionSort (fun x y => x ≤ y) = List.replicate m v :=
    List.eq_of_perm_of_sorted ((List.perm_insertionSort _ l).trans hperm)
      (List.sorted_insertionSort _ l) (sorted_replicate m v)
  have hlen : l.length = m := by simpa using hperm.length_eq
  unfold median
  rw [hs, hlen]
  by_cases hpar : m % 2 = 1
  · rw [if_pos hpar, getD_replicate_of_lt _ _ (show m / 2 < m by omega)]
  · rw [if_neg hpar, getD_replicate_of_lt _ _ (show m / 2 - 1 < m by omega),
      getD_replicate_of_lt _ _ (show m / 2 < m by omega)]
    ring

theorem median_perm_one_off (l : List ℤ) (m : ℕ) (x v : ℤ) (hm : 2 ≤ m)
    (hperm : l.Perm (x :: List.replicate m v)) : median l = (v : ℚ) := by
  have hlen : l.length = m + 1 := by simpa using hperm.length_eq
  by_cases hx : x ≤ v
  · have hs : l.insertionSort (fun x y => x ≤ y) = x :: List.replicate m v := by
      refine List.eq_of_perm_of_sorted ((List.perm_insertionSort _ l).trans hperm)
        (List.sorted_insertionSort _ l) ?_
      rw [List.sorted_cons]
      exact ⟨fun b hb => (List.eq_of_mem_replicate hb).symm ▸ hx, sorted_replicate m v⟩
    unfold median
    rw [hs, hlen]
    by_cases hpar : (m + 1) % 2 = 1
    · rw [if_pos hpar]
      obtain ⟨i, hieq⟩ : ∃ i, (m + 1) / 2 = i + 1 := ⟨(m + 1) / 2 - 1, by omega⟩
      rw [hieq, List.getD_cons_succ, getD_replicate_of_lt _ _ (show i < m by omega)]
    · rw [if_neg hpar]
      obtain ⟨i, hieq⟩ : ∃ i, (m + 1) / 2 - 1 = i + 1 := ⟨(m + 1) / 2 - 2, by omega⟩
      obtain ⟨j, hjeq⟩ : ∃ j, (m + 1) / 2 = j + 1 := ⟨(m + 1) / 2 - 1, by omega⟩
      rw [hieq, hjeq, List.getD_cons_succ, List.getD_cons_succ,
        getD_replicate_of_lt _ _ (show i < m by omega),
        getD_replicate_of_lt _ _ (show j < m by omega)]
      ring
  · have hs : l.insertionSort (fun x y => x ≤ y) = List.replicate m v ++ [x] := by
      refine List.eq_of_perm_of_sorted ((List.perm_insertionSort _ l).trans (hperm.trans ?_))
        (List.sorted_insertionSort _ l) ?_
      · have h0 : (List.replicate m v ++ x :: []).Perm (x :: (List.replicate m v ++ [])) :=
          List.perm_middle
        simpa using h0.symm
      · show List.Pairwise _ _
        rw [List.pairwise_append]
        refine ⟨sorted_replicate m v, List.pairwise_singleton _ _, fun a ha b hb => ?_⟩
        rw [List.eq_of_mem_replicate ha, List.mem_singleton.mp hb]
        exact le_of_lt (not_le.mp hx)
    unfold median
    rw [hs, hlen]
    by_cases hpar : (m + 1) % 2 = 1
    · rw [if_pos hpar,
        List.getD_append _ _ _ _ (show (m + 1) / 2 < (List.replicate m v).length by simp; omega),
        getD_replicate_of_lt _ _ (show (m + 1) / 2 < m by omega)]
    · rw [if_neg hpar,
        List.getD_append _ _ _ _
          (show (m + 1) / 2 - 1 < (List.replicate m v).length by simp; omega),
        List.getD_append _ _ _ _ (show (m + 1) / 2 < (List.replicate m v).length by simp; omega),
        getD_replicate_of_lt _ _ (show (m + 1) / 2 - 1 < m by omega),
        getD_replicate_of_lt _ _ (show (m + 1) / 2 < m by omega)]
      ring

/-! ## Decomposing an almost-constant window -/

theorem map_range_eq_replicate {α : Type} (n : ℕ) (g : ℕ → α) (d : α)
    (h : ∀ j, j < n → g j = d) : (List.range n).map g = List.replicate n d := by
  rw [List.eq_replicate_iff]
  refine ⟨by simp, fun b hb => ?_⟩
  simp only [List.mem_map, List.mem_range] at hb
  obtain ⟨j, hj, rfl⟩ := hb
  exact h j hj

theorem range_map_except {α : Type} (n q : ℕ) (g : ℕ → α) (d : α) (hq : q < n)
    (hg : ∀ j, j < n → j ≠ q → g j = d) :
    (List.range n).map g = List.replicate q d ++ g q :: List.replicate (n - q - 1) d := by
  have h1 : List.range n = List.range q ++ (List.range (n - q)).map fun t => q + t := by
    rw [← List.range_add]
    congr 1
    omega
  have h2 : List.range (n - q) = 0 :: (List.range (n - q - 1)).map Nat.succ := by
    rw [← List.range_succ_eq_map]
    congr 1
    omega
  rw [h1, List.map_append, h2, List.map_map, List.map_cons, List.map_map]
  congr 1
  · exact map_range_eq_replicate q g d fun j hj => hg j (by omega) (by omega)
  · simp only [Function.comp]
    congr 1
    exact map_range_eq_replicate (n - q - 1) _ d fun j hj => hg (q + (j + 1)) (by omega) (by omega)

theorem flatten_replicate_replicate {α : Type} (k n : ℕ) (a : α) :
    (List.replicate k (List.replicate n a)).flatten = List.replicate (k * n) a := by
  induction k with
  | zero => simp
  | succ k ih =>
    rw [List.replicate_succ, List.flatten_cons, ih, ← List.replicate_add]
    congr 1
    ring

/-! ## Integer versus float dtype: cast commutation -/

theorem castGrid_length (g : Grid) : (castGrid g).length = g.length := by
  simp [castGrid]

theorem colsQ_castGrid (g : Grid) : colsQ (castGrid g) = cols g := by
  cases g with
  | nil => rfl
  | cons r t => simp [colsQ, cols, castGrid]

theorem padRowQ_cast (p : ℕ) (row : List ℤ) :
    padRowQ p (row.map fun x => ((x : ℤ) : ℚ)) = (padRow p row).map fun x => ((x : ℤ) : ℚ) := by
  unfold padRowQ padRow
  simp

theorem padQ_castGrid (p : ℕ) (g : Grid) : padQ p (castGrid g) = castGrid (pad p g) := by
  unfold padQ pad
  rw [colsQ_castGrid]
  show _ = castGrid (_ ++ g.map (padRow p) ++ _)
  unfold castGrid
  rw [List.map_append, List.map_append, List.map_map, List.map_map, List.map_replicate,
    List.map_replicate]
  congr 1
  congr 1
  exact List.map_congr_left fun row _ => padRowQ_cast p row

theorem slice2Q_cast (g : Grid) (r c n : ℕ) :
    slice2Q (castGrid g) r c n = castGrid (slice2 g r c n) := by
  unfold slice2Q slice2 castGrid
  rw [← List.map_drop, ← List.map_take, List.map_map, List.map_map]
  refine List.map_congr_left fun row _ => ?_
  simp only [Function.comp]
  rw [← List.map_drop, ← List.map_take]

theorem list_sum_cast (l : List ℤ) :
    ((l.sum : ℤ) : ℚ) = (l.map fun x => ((x : ℤ) : ℚ)).sum := by
  induction l with
  | nil => simp
  | cons a t ih => simp [ih]

theorem sum2Q_cast (g : Grid) : sum2Q (castGrid g) = ((sum2 g : ℤ) : ℚ) := by
  induction g with
  | nil => simp [sum2Q, sum2, castGrid]
  | cons row t ih => simp [sum2Q, sum2, castGrid, list_sum_cast] at ih ⊢; rw [← ih]

theorem zipWith_mul_cast (ra rb : List ℤ) :
    List.zipWith (fun x y : ℚ => x * y) (ra.map fun x => ((x : ℤ) : ℚ))
        (rb.map fun x => ((x : ℤ) : ℚ)) =
      (List.zipWith (fun x y => x * y) ra rb).map fun x => ((x : ℤ) : ℚ) := by
  induction ra generalizing rb with
  | nil => simp
  | cons a ta ih =>
    cases rb with
    | nil => simp
    | cons b tb => simp [ih]

theorem mul2Q_cast (a b : Grid) : mul2Q (castGrid a) (castGrid b) = castGrid (mul2 a b) := by
  induction a generalizing b with
  | nil => simp [mul2Q, mul2, castGrid]
  | cons ra ta ih =>
    cases b with
    | nil => simp [mul2Q, mul2, castGrid]
    | cons rb tb =>
      simp only [mul2Q, mul2, castGrid, List.map_cons, List.zipWith_cons_cons] at ih ⊢
      rw [zipWith_mul_cast, ih]

theorem weightMatrixQ_cast : weightMatrixQ = castGrid weightMatrix := by
  decide

theorem getD_map_cast (l : List ℤ) (i : ℕ) :
    (l.map fun x => ((x : ℤ) : ℚ)).getD i 0 = ((l.getD i 0 : ℤ) : ℚ) := by
  by_cases h : i < l.length
  · rw [List.getD_eq_getElem _ _ (by simpa using h), List.getD_eq_getElem _ _ h,
      List.getElem_map]
  · rw [List.getD_eq_default _ _ (by simpa using h), List.getD_eq_default _ _ (by omega)]
    simp

theorem insertionSort_map_cast (l : List ℤ) :
    (l.map fun x => ((x : ℤ) : ℚ)).insertionSort (fun x y => x ≤ y) =
      (l.insertionSort (fun x y => x ≤ y)).map fun x => ((x : ℤ) : ℚ) := by
  have h1 : ((l.map fun x => ((x : ℤ) : ℚ)).insertionSort (fun x y => x ≤ y)).Perm
      ((l.insertionSort (fun x y => x ≤ y)).map fun x => ((x : ℤ) : ℚ)) :=
    (List.perm_insertionSort _ _).trans
      (((List.perm_insertionSort (fun x y => x ≤ y) l).map _).symm)
  have h2 := List.sorted_insertionSort (fun x y : ℚ => x ≤ y) (l.map fun x => ((x : ℤ) : ℚ))
  have h3 : ((l.insertionSort (fun x y => x ≤ y)).map fun x => ((x : ℤ) : ℚ)).Sorted
      (fun x y : ℚ => x ≤ y) := by
    show List.Pairwise _ _
    exact List.Pairwise.map _ (fun a b h => by exact_mod_cast h)
      (List.sorted_insertionSort (fun x y => x ≤ y) l)
  exact List.eq_of_perm_of_sorted h1 h2 h3

theorem medianQ_map_cast (l : List ℤ) :
    medianQ (l.map fun x => ((x : ℤ) : ℚ)) = median l := by
  unfold medianQ median
  rw [insertionSort_map_cast, List.length_map]
  by_cases h : l.length % 2 = 1
  · rw [if_pos h, if_pos h, getD_map_cast]
  · rw [if_neg h, if_neg h, getD_map_cast, getD_map_cast]

theorem flatten_castGrid (L : Grid) :
    (castGrid L).flatten = L.flatten.map fun x => ((x : ℤ) : ℚ) :=
  (List.map_flatten _ _).symm

/-! ## Auxiliary bound and window lemmas for the filters -/

theorem ceilHalf_double (fs : ℕ) : fs ≤ 2 * ceilHalf fs := by
  unfold ceilHalf
  omega

theorem pad_row_bound (img : Grid) (p fs r : ℕ) (hr : r < img.length)
    (hfs : fs ≤ 2 * p + 1) : r + fs ≤ (pad p img).length := by
  rw [length_pad]
  omega

theorem pad_col_bound (img : Grid) (p fs c : ℕ) (hrect : Rect img) (hc : c < cols img)
    (hfs : fs ≤ 2 * p + 1) : ∀ row ∈ pad p img, c + fs ≤ row.length := fun row hrow => by
  rw [row_length_pad p img hrect row hrow]
  omega

theorem sum2_mul2_weight (img1 : Grid) (r c : ℕ)
    (h1 : r + 3 ≤ img1.length) (h2 : ∀ row ∈ img1, c + 3 ≤ row.length) :
    sum2 (mul2 (slice2 img1 r c 3) weightMatrix) =
      ∑ i ∈ Finset.range 3, ∑ j ∈ Finset.range 3,
        getCell weightMatrix i j * getCell img1 (r + i) (c + j) := by
  conv_lhs => rw [slice2_eq img1 r c 3 h1 h2, weightMatrix_eq_range]
  rw [sum2_mul2_range]
  exact Finset.sum_congr rfl fun i _ => Finset.sum_congr rfl fun j _ => mul_comm _ _

/-! ## Claim theorems -/

/-- Claim C1: for every rectangular integer grid and every filterSize ≥ 1,
`boxFilter` computes each output cell (r, c) as the floor of the sum of
the filterSize×filterSize window of the padded grid anchored at (r, c)
divided by filterSize squared, where the padding is a border of width
`ceilHalf filterSize` holding the constant 255 (`specBoxCell` spells out
the formula exactly as the design document states it). -/
theorem boxFilter_matches_spec (img : Grid) (fs r c : ℕ) (hrect : Rect img)
    (hfs : 1 ≤ fs) (hr : r < img.length) (hc : c < cols img) :
    getCell (boxFilter img fs) r c = specBoxCell img fs r c := by
  simp only [boxFilter]
  rw [getCell_buildGrid _ _ _ hr hc]
  unfold boxReplace specBoxCell specWindowSum
  rw [sum2_slice2 _ _ _ _
    (pad_row_bound img _ fs r hr (by have := ceilHalf_double fs; omega))
    (pad_col_bound img _ fs c hrect hc (by have := ceilHalf_double fs; omega))]
  rw [show ((fs : ℤ) * (fs : ℤ)) = ((fs * fs : ℕ) : ℤ) by push_cast; ring]
  exact fdiv_eq_floor _ _

/-- Witness for C1 at the concrete scenario of the design document: the
5×5 all-zero grid with filterSize 3; the corner output value 226 shows
that the window includes 255-valued padding cells. -/
theorem boxFilter_matches_spec_witness :
    getCell (boxFilter (List.replicate 5 (List.replicate 5 0)) 3) 0 0 =
        specBoxCell (List.replicate 5 (List.replicate 5 0)) 3 0 0 ∧
      getCell (boxFilter (List.replicate 5 (List.replicate 5 0)) 3) 0 0 = 226 :=
  ⟨boxFilter_matches_spec (List.replicate 5 (List.replicate 5 0)) 3 0 0
    (by decide) (by decide) (by decide) (by decide), by decide⟩

/-- Claim C2: for every rectangular input grid and filterSize ≥ 1, the
outputs of `boxFilter`, `weightedAvgFilter` and `medianFilter` have
exactly the shape of the input grid. -/
theorem filters_preserve_shape (img : Grid) (fs : ℕ) (hrect : Rect img) (hfs : 1 ≤ fs) :
    sameShape (boxFilter img fs) img ∧ sameShape (weightedAvgFilter img) img ∧
      sameShape (medianFilter img fs) img :=
  ⟨sameShape_buildGrid img _ hrect, sameShape_buildGrid img _ hrect,
    sameShape_buildGrid img _ hrect⟩

/-- Witness for C2 at a concrete 2×3 grid with filterSize 3. -/
theorem filters_preserve_shape_witness :
    sameShape (boxFilter [[1, 2, 3], [4, 5, 6]] 3) [[1, 2, 3], [4, 5, 6]] ∧
      sameShape (weightedAvgFilter [[1, 2, 3], [4, 5, 6]]) [[1, 2, 3], [4, 5, 6]] ∧
      sameShape (medianFilter [[1, 2, 3], [4, 5, 6]] 3) [[1, 2, 3], [4, 5, 6]] :=
  filters_preserve_shape [[1, 2, 3], [4, 5, 6]] 3 (by decide) (by decide)

/-- Claim C3 is refuted: `boxFilter` with filterSize 1 is not the
identity.  With filterSize 1 the padding width is ceil(1/2) = 1 and the
window anchored at (r, c) is the single padded cell (r, c), so the 1×1
grid holding 7 maps to 255, the padding value. -/
theorem boxFilter_size_one_not_identity : boxFilter [[7]] 1 ≠ [[7]] := by
  decide

/-- Claim C3 amended: `boxFilter` with filterSize 1 shifts the image by
one pixel down and right instead of reproducing it: output cell (r, c)
is the padded cell (r, c), that is 255 whenever r = 0 or c = 0, and the
input cell (r-1, c-1) otherwise. -/
theorem boxFilter_size_one_shifts (img : Grid) (r c : ℕ) (hrect : Rect img)
    (hr : r < img.length) (hc : c < cols img) :
    getCell (boxFilter img 1) r c =
      if r = 0 ∨ c = 0 then 255 else getCell img (r - 1) (c - 1) := by
  simp only [boxFilter]
  rw [getCell_buildGrid _ _ _ hr hc]
  unfold boxReplace
  rw [sum2_slice2 _ _ _ _
    (pad_row_bound img _ 1 r hr (by have := ceilHalf_double 1; omega))
    (pad_col_bound img _ 1 c hrect hc (by have := ceilHalf_double 1; omega))]
  simp only [Finset.sum_range_one, Nat.add_zero]
  norm_num [Int.fdiv_one]
  show getCell (pad 1 img) r c = _
  by_cases h0 : r = 0 ∨ c = 0
  · rw [if_pos h0]
    exact getCell_pad_border 1 img hrect (by omega) (by omega) (by omega)
  · rw [if_neg h0]
    push_neg at h0
    exact getCell_pad_inner 1 img hrect (by omega) (by omega) (by omega) (by omega)

/-- Witness for the amended C3 at a 2×2 grid: the interior output cell
(1, 1) holds the input cell (0, 0). -/
theorem boxFilter_size_one_shifts_witness :
    getCell (boxFilter [[7, 8], [9, 10]] 1) 1 1 =
      if 1 = 0 ∨ 1 = 0 then 255 else getCell [[7, 8], [9, 10]] 0 0 :=
  boxFilter_size_one_shifts [[7, 8], [9, 10]] 1 1 (by decide) (by decide) (by decide)

/-- Claim C4: `weightedAvgFilter` computes each output cell (r, c) as
the element-wise product of the 3×3 window of the padded grid anchored
at (r, c) with the fixed matrix [[1,2,1],[2,4,2],[1,2,1]], summed and
divided by 16 (`specWeightedCell`), the padding being a fixed border of
width 1 holding 255, and the fractional quotient truncated by the
assignment into the integer-typed output grid (`truncQ`). -/
theorem weightedAvgFilter_matches_spec (img : Grid) (r c : ℕ) (hrect : Rect img)
    (hr : r < img.length) (hc : c < cols img) :
    getCell (weightedAvgFilter img) r c = truncQ (specWeightedCell img r c) := by
  simp only [weightedAvgFilter]
  rw [getCell_buildGrid _ _ _ hr hc]
  unfold weightedReplace specWeightedCell
  rw [sum2_mul2_weight _ _ _ (pad_row_bound img 1 3 r hr (by omega))
    (pad_col_bound img 1 3 c hrect hc (by omega))]

/-- Witness for C4 at the 2×2 grid [[1,2],[3,4]], output cell (1, 1). -/
theorem weightedAvgFilter_matches_spec_witness :
    getCell (weightedAvgFilter [[1, 2], [3, 4]]) 1 1 =
      truncQ (specWeightedCell [[1, 2], [3, 4]] 1 1) :=
  weightedAvgFilter_matches_spec [[1, 2], [3, 4]] 1 1 (by decide) (by decide) (by decide)

/-- Claim C7: when no direct image grid is supplied and the loader
yields the not-found signal `none`, each entry point returns that same
`none` to its caller, producing no grid at all. -/
theorem filters_propagate_none (fs : ℕ) :
    boxFilterCall none none fs = none ∧ weightedAvgFilterCall none none = none ∧
      medianFilterCall none none fs = none :=
  ⟨rfl, rfl, rfl⟩

/-- Claim C8: an even filterSize ≥ 2 does not make `boxFilter` or
`medianFilter` fail: exactly the advisory message is emitted, the
computation proceeds with the even size and padding width
`ceilHalf filterSize`, and the output has the shape of the input. -/
theorem even_size_warns_and_completes (img : Grid) (fs : ℕ) (hrect : Rect img)
    (heven : fs % 2 = 0) (hfs : 2 ≤ fs) :
    oddSizeWarning fs =
        ["Please Try using Odd Numbers for filter_size to get good results"] ∧
      sameShape (boxFilter img fs) img ∧ sameShape (medianFilter img fs) img := by
  refine ⟨?_, sameShape_buildGrid img _ hrect, sameShape_buildGrid img _ hrect⟩
  unfold oddSizeWarning
  rw [if_pos heven]

/-- Witness for C8 at a 2×2 grid with the even filterSize 2. -/
theorem even_size_warns_and_completes_witness :
    oddSizeWarning 2 =
        ["Please Try using Odd Numbers for filter_size to get good results"] ∧
      sameShape (boxFilter [[1, 2], [3, 4]] 2) [[1, 2], [3, 4]] ∧
      sameShape (medianFilter [[1, 2], [3, 4]] 2) [[1, 2], [3, 4]] :=
  even_size_warns_and_completes [[1, 2], [3, 4]] 2 (by decide) (by decide) (by decide)

/-- Claim C9: the imperative loops of the three filters never mutate the
input grid: after the fold of all cell assignments (which write only
into the fresh `np.zeros_like` output array), the input component of the
state is unchanged. -/
theorem filters_never_mutate_input (img : Grid) (fs : ℕ) :
    (boxFilterLoop img fs).inp = img ∧ (weightedAvgFilterLoop img).inp = img ∧
      (medianFilterLoop img fs).inp = img := by
  refine ⟨?_, ?_, ?_⟩
  · exact foldl_writeOut_inp (fun rc => boxReplace (pad (ceilHalf fs) img) fs rc.1 rc.2) _ _
  · exact foldl_writeOut_inp (fun rc => truncQ (weightedReplace (pad 1 img) rc.1 rc.2)) _ _
  · exact foldl_writeOut_inp
      (fun rc => truncQ (medianReplace (pad (ceilHalf fs) img) fs rc.1 rc.2)) _ _

/-- Claim C5: applying `weightedAvgFilter` to a constant grid of value
v leaves every interior cell (at distance more than the padding width 1
from every edge) exactly at v; only a pad-wide border margin can be
affected by the 255-valued padding. -/
theorem weightedAvgFilter_constant_interior (img : Grid) (v : ℤ) (r c : ℕ)
    (hrect : Rect img)
    (hconst : ∀ i, i < img.length → ∀ j, j < cols img → getCell img i j = v)
    (hr1 : 1 < r) (hr2 : r + 2 < img.length) (hc1 : 1 < c) (hc2 : c + 2 < cols img) :
    getCell (weightedAvgFilter img) r c = v := by
  simp only [weightedAvgFilter]
  rw [getCell_buildGrid _ _ _ (by omega) (by omega)]
  unfold weightedReplace
  rw [sum2_mul2_weight _ _ _ (pad_row_bound img 1 3 r (by omega) (by omega))
    (pad_col_bound img 1 3 c hrect (by omega) (by omega))]
  have hcell : ∀ i j, i < 3 → j < 3 → getCell (pad 1 img) (r + i) (c + j) = v := by
    intro i j hi hj
    rw [getCell_pad_inner 1 img hrect (by omega) (by omega) (by omega) (by omega)]
    exact hconst _ (by omega) _ (by omega)
  rw [Finset.sum_congr rfl fun i hi => Finset.sum_congr rfl fun j hj => by
    rw [hcell i j (Finset.mem_range.mp hi) (Finset.mem_range.mp hj)]]
  have hsum : (∑ i ∈ Finset.range 3, ∑ j ∈ Finset.range 3, getCell weightMatrix i j * v) =
      16 * v := by
    simp [Finset.sum_range_succ, getCell, weightMatrix]
    ring
  rw [hsum, show (((16 * v : ℤ) : ℚ) / 16) = ((v : ℤ) : ℚ) by push_cast; ring, truncQ_intCast]

/-- Witness for C5: the 5×5 constant grid of value 9, interior cell
(2, 2). -/
theorem weightedAvgFilter_constant_interior_witness :
    getCell (weightedAvgFilter (List.replicate 5 (List.replicate 5 9))) 2 2 = 9 :=
  weightedAvgFilter_constant_interior (List.replicate 5 (List.replicate 5 9)) 9 2 2
    (by decide) (by decide) (by decide) (by decide) (by decide) (by decide)

/-- Claim C6: on a grid that is constant of value v except for one
spike pixel at (r, c), if every cell of the filterSize×filterSize
window used for output coordinate (r, c) other than the one at the
spike position (window offset (ceilHalf fs, ceilHalf fs)) holds v, then
`medianFilter` removes the spike: the output at (r, c) is v. -/
theorem medianFilter_removes_spike (img : Grid) (v : ℤ) (fs r c : ℕ)
    (hrect : Rect img) (hfs : 1 ≤ fs) (hr : r < img.length) (hc : c < cols img)
    (hconst : ∀ i, i < img.length → ∀ j, j < cols img → ¬(i = r ∧ j = c) →
      getCell img i j = v)
    (hwin : ∀ i, i < fs → ∀ j, j < fs → ¬(i = ceilHalf fs ∧ j = ceilHalf fs) →
      getCell (pad (ceilHalf fs) img) (r + i) (c + j) = v) :
    getCell (medianFilter img fs) r c = v := by
  simp only [medianFilter]
  rw [getCell_buildGrid _ _ _ hr hc]
  unfold medianReplace
  have hppos : 1 ≤ ceilHalf fs := by unfold ceilHalf; omega
  rw [slice2_eq _ _ _ _
    (pad_row_bound img _ fs r hr (by have := ceilHalf_double fs; omega))
    (pad_col_bound img _ fs c hrect hc (by have := ceilHalf_double fs; omega))]
  by_cases hcase : ceilHalf fs < fs
  · have hrow : ∀ i, i < fs → i ≠ ceilHalf fs →
        ((List.range fs).map fun j => getCell (pad (ceilHalf fs) img) (r + i) (c + j)) =
          List.replicate fs v :=
      fun i hi hne => map_range_eq_replicate fs _ v fun j hj => hwin i hi j hj (by tauto)
    rw [range_map_except fs (ceilHalf fs) _ (List.replicate fs v) hcase hrow]
    rw [range_map_except fs (ceilHalf fs) _ v hcase
      fun j hj hne => hwin (ceilHalf fs) hcase j hj (by tauto)]
    rw [List.flatten_append, List.flatten_cons, flatten_replicate_replicate,
      flatten_replicate_replicate]
    have hstep : List.replicate (ceilHalf fs * fs) v ++
        ((List.replicate (ceilHalf fs) v ++
          getCell (pad (ceilHalf fs) img) (r + ceilHalf fs) (c + ceilHalf fs) ::
            List.replicate (fs - ceilHalf fs - 1) v) ++
          List.replicate ((fs - ceilHalf fs - 1) * fs) v) =
        List.replicate (ceilHalf fs * fs + ceilHalf fs) v ++
          getCell (pad (ceilHalf fs) img) (r + ceilHalf fs) (c + ceilHalf fs) ::
            List.replicate ((fs - ceilHalf fs - 1) + (fs - ceilHalf fs - 1) * fs) v := by
      simp [List.append_assoc]
      rw [List.replicate_add (ceilHalf fs * fs) (ceilHalf fs) v, List.append_assoc]
    rw [hstep]
    have hperm : (List.replicate (ceilHalf fs * fs + ceilHalf fs) v ++
        getCell (pad (ceilHalf fs) img) (r + ceilHalf fs) (c + ceilHalf fs) ::
          List.replicate ((fs - ceilHalf fs - 1) + (fs - ceilHalf fs - 1) * fs) v).Perm
        (getCell (pad (ceilHalf fs) img) (r + ceilHalf fs) (c + ceilHalf fs) ::
          List.replicate ((ceilHalf fs * fs + ceilHalf fs) +
            ((fs - ceilHalf fs - 1) + (fs - ceilHalf fs - 1) * fs)) v) := by
      have h0 : (List.replicate (ceilHalf fs * fs + ceilHalf fs) v ++
          getCell (pad (ceilHalf fs) img) (r + ceilHalf fs) (c + ceilHalf fs) ::
            List.replicate ((fs - ceilHalf fs - 1) + (fs - ceilHalf fs - 1) * fs) v).Perm
          (getCell (pad (ceilHalf fs) img) (r + ceilHalf fs) (c + ceilHalf fs) ::
            (List.replicate (ceilHalf fs * fs + ceilHalf fs) v ++
              List.replicate ((fs - ceilHalf fs - 1) + (fs - ceilHalf fs - 1) * fs) v)) :=
        List.perm_middle
      rw [← List.replicate_add] at h0
      exact h0
    have hm : 2 ≤ (ceilHalf fs * fs + ceilHalf fs) +
        ((fs - ceilHalf fs - 1) + (fs - ceilHalf fs - 1) * fs) := by
      have := Nat.mul_le_mul hppos hfs
      omega
    rw [median_perm_one_off _ _ _ _ hm hperm, truncQ_intCast]
  · have hall : ∀ i, i < fs →
        ((List.range fs).map fun j => getCell (pad (ceilHalf fs) img) (r + i) (c + j)) =
          List.replicate fs v :=
      fun i hi => map_range_eq_replicate fs _ v fun j hj => hwin i hi j hj (by omega)
    rw [map_range_eq_replicate fs _ (List.replicate fs v) hall, flatten_replicate_replicate]
    have hm : 1 ≤ fs * fs := Nat.mul_le_mul hfs hfs
    rw [median_perm_replicate _ (fs * fs) v hm (List.Perm.refl _), truncQ_intCast]

/-- Witness for C6: a 5×5 zero grid with a spike of 9 at (2, 2) and
filterSize 3; the median output at the spike coordinate is 0. -/
theorem medianFilter_removes_spike_witness :
    getCell (medianFilter
      [[0, 0, 0, 0, 0], [0, 0, 0, 0, 0], [0, 0, 9, 0, 0], [0, 0, 0, 0, 0], [0, 0, 0, 0, 0]]
      3) 2 2 = 0 :=
  medianFilter_removes_spike
    [[0, 0, 0, 0, 0], [0, 0, 0, 0, 0], [0, 0, 9, 0, 0], [0, 0, 0, 0, 0], [0, 0, 0, 0, 0]]
    0 3 2 2 (by decide) (by decide) (by decide) (by decide) (by decide) (by decide)

/-- Claim C10: the output grid of each filter has the element type of
the input grid: running the same loops on a float-typed copy of an
integer input (`castGrid`, and the rational mirrors `boxFilterQ`,
`weightedAvgFilterQ`, `medianFilterQ`) and truncating each stored value
toward zero (`truncQ`, the numpy float-to-int conversion) yields
exactly the integer-typed outputs, so every non-integral aggregate (the
unfloored weighted mean and an even-count median average) is truncated
on assignment. -/
theorem filters_preserve_dtype (img : Grid) (fs r c : ℕ) (hrect : Rect img) (hfs : 1 ≤ fs)
    (hr : r < img.length) (hc : c < cols img) :
    getCell (boxFilter img fs) r c = truncQ (getCellQ (boxFilterQ (castGrid img) fs) r c) ∧
      getCell (weightedAvgFilter img) r c =
        truncQ (getCellQ (weightedAvgFilterQ (castGrid img)) r c) ∧
      getCell (medianFilter img fs) r c =
        truncQ (getCellQ (medianFilterQ (castGrid img) fs) r c) := by
  have hrQ : r < (castGrid img).length := by rw [castGrid_length]; exact hr
  have hcQ : c < colsQ (castGrid img) := by rw [colsQ_castGrid]; exact hc
  refine ⟨?_, ?_, ?_⟩
  · simp only [boxFilter, boxFilterQ]
    rw [getCell_buildGrid _ _ _ hr hc, getCellQ_buildGridQ _ _ _ hrQ hcQ,
      padQ_castGrid, slice2Q_cast, sum2Q_cast, truncQ_intCast]
    unfold boxReplace
    rw [show ((fs : ℤ) * (fs : ℤ)) = ((fs * fs : ℕ) : ℤ) by push_cast; ring]
    exact fdiv_eq_floor _ _
  · simp only [weightedAvgFilter, weightedAvgFilterQ]
    rw [getCell_buildGrid _ _ _ hr hc, getCellQ_buildGridQ _ _ _ hrQ hcQ,
      padQ_castGrid, slice2Q_cast, weightMatrixQ_cast, mul2Q_cast, sum2Q_cast]
    rfl
  · simp only [medianFilter, medianFilterQ]
    rw [getCell_buildGrid _ _ _ hr hc, getCellQ_buildGridQ _ _ _ hrQ hcQ,
      padQ_castGrid, slice2Q_cast, flatten_castGrid, medianQ_map_cast]
    rfl

/-- Witness for C10 at the 2×2 grid [[1,2],[3,4]] with the even
filterSize 2 (so the median is an average of two middle elements),
output cell (0, 0). -/
theorem filters_preserve_dtype_witness :
    getCell (boxFilter [[1, 2], [3, 4]] 2) 0 0 =
        truncQ (getCellQ (boxFilterQ (castGrid [[1, 2], [3, 4]]) 2) 0 0) ∧
      getCell (weightedAvgFilter [[1, 2], [3, 4]]) 0 0 =
        truncQ (getCellQ (weightedAvgFilterQ (castGrid [[1, 2], [3, 4]])) 0 0) ∧
      getCell (medianFilter [[1, 2], [3, 4]] 2) 0 0 =
        truncQ (getCellQ (medianFilterQ (castGrid [[1, 2], [3, 4]]) 2) 0 0) :=
  filters_preserve_dtype [[1, 2], [3, 4]] 2 0 0 (by decide) (by decide) (by decide)
    (by decide)

end VisionCraft
